import Mathlib

set_option maxRecDepth 40000

/-!
Verification of the kindred-costs repository (expense-splitting web app).

The development shallowly embeds the parts of the repository that the
claims C1..C10 are about:

* the PostgreSQL schema and row-level-security policies of
  src/supabase/migrations/20250729071003-....sql, as a state-transition
  system over lists of rows (one transition per client request that a
  policy admits);
* the plpgsql function generate_apartment_code from the same migration;
* the join flow of src/src/components/JoinApartmentDialog.tsx;
* the dashboard aggregation of src/src/pages/Dashboard.tsx, including an
  exact model of IEEE-754 binary64 arithmetic for its JavaScript number
  summation;
* the Balance Engine of spec section 4.1, which the sources leave
  unimplemented (Dashboard.tsx hard-codes the user balance to 0), modelled
  from the spec.

Monetary amounts are embedded as integer cents (minor units): the stored
DECIMAL(10,2) value 100.00 is the integer 10000.  User ids, apartment ids
and codes are strings.
-/

/-! ## Exact rational arithmetic and the binary64 model

Dashboard.tsx line 72 computes
`expenses?.reduce((sum, exp) => sum + Number(exp.amount), 0)`,
i.e. IEEE-754 binary64 (JavaScript number) addition.  To reason about it
exactly we represent real values as unnormalised integer fractions and
model binary64 round-to-nearest-even on them.  The model covers the
normal range of binary64 (no overflow or subnormals), which contains
every monetary value of DECIMAL(10,2). -/

/-- An unnormalised fraction num/den with den > 0 intended; kept
unnormalised so that all arithmetic is plain integer arithmetic. -/
structure Frac where
  num : Int
  den : Int
deriving DecidableEq

/-- Exact addition of fractions. -/
def fracAdd (a b : Frac) : Frac := ⟨a.num * b.den + b.num * a.den, a.den * b.den⟩

/-- Value equality of fractions by cross-multiplication. -/
def fracEqv (a b : Frac) : Prop := a.num * b.den = b.num * a.den

instance fracEqvDecidable (a b : Frac) : Decidable (fracEqv a b) := by
  unfold fracEqv; infer_instance

/-- Fueled binary logarithm; fuel 200 is exact for every argument
below 2 to the 200, far above every number occurring here. -/
def log2fuel : Nat → Nat → Nat
  | 0, _ => 0
  | f + 1, n => if n < 2 then 0 else log2fuel f (n / 2) + 1

/-- Floor of the base-2 logarithm of a natural number. -/
def natLog2 (n : Nat) : Nat := log2fuel 200 n

/-- Decides whether 2 to the possibly negative power e is at most n/d
(n, d positive). -/
def le2 (n d : Int) (e : Int) : Bool :=
  if 0 ≤ e then d * 2 ^ e.toNat ≤ n else d ≤ n * 2 ^ (-e).toNat

/-- Floor of the base-2 logarithm of the positive rational n/d: a first
estimate from the integer logarithms of n and d, corrected by at most
one in either direction (the estimate is always within one of the true
value). -/
def floorLog2 (n d : Int) : Int :=
  let c : Int := (natLog2 n.toNat : Int) - (natLog2 d.toNat : Int)
  if le2 n d (c + 1) then c + 1 else if le2 n d c then c else c - 1

/-- Round the rational n/d (d > 0) to the nearest integer, ties to even
(the IEEE-754 default rounding). -/
def rne (n d : Int) : Int :=
  let q := n / d
  let r := n % d
  if 2 * r < d then q
  else if d < 2 * r then q + 1
  else if q % 2 = 0 then q else q + 1

/-- Round a positive rational n/d to the nearest binary64 value: scale
into the 53-bit mantissa window given by the exponent, round to nearest
even, scale back. -/
def roundPosFrac (n d : Int) : Frac :=
  let e := floorLog2 n d
  let sn := if 0 ≤ 52 - e then n * 2 ^ (52 - e).toNat else n
  let sd := if 0 ≤ 52 - e then d else d * 2 ^ (e - 52).toNat
  let m := rne sn sd
  if 0 ≤ e - 52 then ⟨m * 2 ^ (e - 52).toNat, 1⟩ else ⟨m, 2 ^ (52 - e).toNat⟩

/-- Round an arbitrary exact fraction to the nearest binary64 value. -/
def roundDouble (q : Frac) : Frac :=
  if q.num = 0 then ⟨0, 1⟩
  else if 0 < q.num then roundPosFrac q.num q.den
  else
    let p := roundPosFrac (-q.num) q.den
    ⟨-p.num, p.den⟩

/-- JavaScript Number() applied to a stored DECIMAL(10,2) amount of
the given number of cents: the binary64 value nearest to cents/100. -/
def jsNumber (cents : Int) : Frac := roundDouble ⟨cents, 100⟩

/-! ## Dashboard aggregation (src/src/pages/Dashboard.tsx lines 66-85) -/

/-- Dashboard.tsx line 72: the expense total is folded up with JavaScript
number addition, so every partial sum is rounded to binary64. -/
def dashboardTotalExpenses (cents : List Int) : Frac :=
  cents.foldl (fun s c => roundDouble (fracAdd s (jsNumber c))) ⟨0, 1⟩

/-- The exact decimal sum of the stored two-decimal amounts, as the
spec's numeric-semantics sentence demands it (comparison definition
written from the spec, not from the source). -/
def exactCentsTotal (cents : List Int) : Frac := ⟨cents.foldl (· + ·) 0, 100⟩

/-- One apartment card of the dashboard grid (interface Apartment,
Dashboard.tsx lines 13-21). -/
structure ApartmentCard where
  id : String
  name : String
  code : String
  member_count : Nat
  total_expenses : Frac
  user_balance : Frac
deriving DecidableEq

/-- Dashboard.tsx lines 57-86: build one apartment card.  Line 72 sums
the fetched expense amounts with JavaScript number addition; line 75 is
`const userBalance = 0; // TODO: Calculate actual balance`, so the
balance shown to the user is the constant 0. -/
def buildApartmentCard (id name code : String) (memberCount : Nat)
    (expenseAmounts : List Int) : ApartmentCard :=
  { id := id
    name := name
    code := code
    member_count := memberCount
    total_expenses := dashboardTotalExpenses expenseAmounts
    user_balance := ⟨0, 1⟩ }

/-! ## Balance Engine (spec section 4.1; absent from the sources) -/

/-- One per-member split of an expense (expense_splits row content the
engine consumes). -/
structure SplitIn where
  user : String
  amount : Int
deriving DecidableEq

/-- One expense with its splits, as the engine consumes it. -/
structure ExpenseIn where
  id : String
  payer : String
  amount : Int
  splits : List SplitIn
deriving DecidableEq

/-- One settlement, as the engine consumes it. -/
structure SettlementIn where
  from_user : String
  to_user : String
  amount : Int
deriving DecidableEq

/-- Error taxonomy of spec section 7 relevant to the engine. -/
inductive BalanceError where
  | invalidInput
deriving DecidableEq

/-- Decidable equality for results carried in Except, used to evaluate
the embedded operations on concrete inputs. -/
instance exceptDecEq {e a : Type} [DecidableEq e] [DecidableEq a] :
    DecidableEq (Except e a) := fun x y =>
  match x, y with
  | Except.ok v, Except.ok w =>
    if h : v = w then isTrue (by rw [h])
    else isFalse (fun he => h (Except.ok.inj he))
  | Except.error v, Except.error w =>
    if h : v = w then isTrue (by rw [h])
    else isFalse (fun he => h (Except.error.inj he))
  | Except.ok _, Except.error _ => isFalse (fun he => Except.noConfusion he)
  | Except.error _, Except.ok _ => isFalse (fun he => Except.noConfusion he)

/-- The total debited to user u by the splits of one expense: the sum of
the shares whose user is u. -/
def splitDebit (u : String) (sps : List SplitIn) : Int :=
  (sps.map (fun sp => if sp.user = u then sp.amount else 0)).sum

/-- Contribution of one expense to the balance of user u: credit the
payer the full amount, debit each split participant their share (the
payer, if also a split participant, nets both). -/
def expenseContrib (u : String) (e : ExpenseIn) : Int :=
  (if e.payer = u then e.amount else 0) - splitDebit u e.splits

/-- Contribution of one settlement to the balance of user u.  Spec
section 4.1 explains the intent: the payment reduces what the paying
from_user owes and reduces what the receiving to_user is owed, and spec
section 8 scenario B fixes the signs (a settlement of 50.00 from Y to X
brings the scenario A balances +50.00 and -50.00 both to 0.00): the
from_user gains the amount and the to_user loses it. -/
def settlementContrib (u : String) (s : SettlementIn) : Int :=
  (if s.from_user = u then s.amount else 0) - (if s.to_user = u then s.amount else 0)

/-- Net balance of user u over all expenses and settlements. -/
def balanceOf (u : String) (es : List ExpenseIn) (ss : List SettlementIn) : Int :=
  (es.map (expenseContrib u)).sum + (ss.map (settlementContrib u)).sum

/-- Validation of the engine input: every referenced user id must be in
the member context, expense and settlement amounts must be positive and
split shares non-negative (the signs the schema CHECK constraints
require). -/
def validInput (members : List String) (es : List ExpenseIn)
    (ss : List SettlementIn) : Bool :=
  es.all (fun e => decide (0 < e.amount) && members.contains e.payer &&
    e.splits.all (fun sp => decide (0 ≤ sp.amount) && members.contains sp.user)) &&
  ss.all (fun st => decide (0 < st.amount) && members.contains st.from_user &&
    members.contains st.to_user)

/-- Modelled from the spec: the Balance Engine of spec section 4.1 is
missing from the sources (Dashboard.tsx line 75 hard-codes the user
balance to 0 with a TODO, and spec section 9 records that the
computation is unimplemented).  Following the spec's algorithm: for each
expense credit the payer the full amount and debit each split
participant their share; for each settlement debit from_user and credit
to_user; members with no transactions have balance zero; fail with
InvalidInput when a referenced user id is outside the member context or
an amount violates the required sign.  The member list is treated as a
set (deduplicated). -/
def computeBalances (members : List String) (es : List ExpenseIn)
    (ss : List SettlementIn) : Except BalanceError (List (String × Int)) :=
  if validInput members es ss then
    Except.ok (members.dedup.map (fun u => (u, balanceOf u es ss)))
  else Except.error BalanceError.invalidInput

/-! ## Apartment code generator
(src/supabase/migrations/...sql lines 234-263, generate_apartment_code) -/

/-- One draw of the six RANDOM() values of a loop iteration, already
cast to INT: r1, r2, r5 come from (RANDOM() * 25)::INT and lie in 0..25,
r3, r4, r6 come from (RANDOM() * 9)::INT and lie in 0..9. -/
structure Rand6 where
  r1 : Nat
  r2 : Nat
  r3 : Nat
  r4 : Nat
  r5 : Nat
  r6 : Nat
deriving DecidableEq

/-- The ranges the six casts deliver (RANDOM() returns a value in
[0, 1), so the rounding casts give 0..25 and 0..9). -/
def randInRange (r : Rand6) : Prop :=
  r.r1 ≤ 25 ∧ r.r2 ≤ 25 ∧ r.r3 ≤ 9 ∧ r.r4 ≤ 9 ∧ r.r5 ≤ 25 ∧ r.r6 ≤ 9

instance randInRangeDecidable (r : Rand6) : Decidable (randInRange r) := by
  unfold randInRange; infer_instance

/-- Migration lines 243-250: the candidate code
CHR(65 + r1) || CHR(65 + r2) || r3 || r4 || CHR(65 + r5) || r6.
A digit 0..9 rendered to text is the single character CHR(48 + digit);
UPPER is the identity on these characters. -/
def mkCode (r : Rand6) : String :=
  String.mk [Char.ofNat (65 + r.r1), Char.ofNat (65 + r.r2),
    Char.ofNat (48 + r.r3), Char.ofNat (48 + r.r4),
    Char.ofNat (65 + r.r5), Char.ofNat (48 + r.r6)]

/-- Migration line 253:
SELECT EXISTS(SELECT 1 FROM public.apartments WHERE code = code).
Both sides of the comparison are the same name, so whichever entity
PostgreSQL resolves it to (the apartments column under use_column, the
plpgsql variable under use_variable; the default configuration raises an
ambiguity error at runtime instead), the WHERE clause compares a
non-null value with itself and every row qualifies: the check is true
exactly when the apartments table is non-empty, independent of the
generated code. -/
def codeTaken (apartmentCodes : List String) (_ : String) : Bool :=
  !apartmentCodes.isEmpty

/-- Migration lines 241-259: the retry loop.  The random stream is the
list of per-iteration draws; an exhausted stream (none) stands for a
loop that is still running after that many iterations. -/
def generate_apartment_code (apartmentCodes : List String) :
    List Rand6 → Option String
  | [] => none
  | r :: rest =>
    let code := mkCode r
    if codeTaken apartmentCodes code then
      generate_apartment_code apartmentCodes rest
    else some code

/-- An uppercase letter A..Z, expressed on code points. -/
def isUpperLetter (c : Char) : Prop := 65 ≤ c.toNat ∧ c.toNat ≤ 90

/-- A decimal digit 0..9, expressed on code points. -/
def isDigitChar (c : Char) : Prop := 48 ≤ c.toNat ∧ c.toNat ≤ 57

/-- The code format the spec states: exactly six characters in the
pattern letter, letter, digit, digit, letter, digit. -/
def codeMatchesPattern (s : String) : Prop :=
  match s.data with
  | [a, b, c, d, e, f] =>
    isUpperLetter a ∧ isUpperLetter b ∧ isDigitChar c ∧ isDigitChar d ∧
      isUpperLetter e ∧ isDigitChar f
  | _ => False

/-! ## Schema rows (migration lines 1-61)

Timestamps (created_at, updated_at, joined_at, date) and the title text
are irrelevant to every claim and are omitted; amounts are integer
cents.  auth.users is external and a user id is any string. -/

/-- public.apartments row (migration lines 2-9). -/
structure ApartmentRow where
  id : String
  name : String
  code : String
  created_by : String
deriving DecidableEq

/-- public.apartment_members row (migration lines 12-18). -/
structure MemberRow where
  apartment_id : String
  user_id : String
deriving DecidableEq

/-- public.expenses row (migration lines 21-31). -/
structure ExpenseRow where
  id : String
  apartment_id : String
  title : String
  amount : Int
  paid_by : String
  created_by : String
deriving DecidableEq

/-- public.expense_splits row (migration lines 34-40). -/
structure SplitRow where
  expense_id : String
  user_id : String
  amount : Int
deriving DecidableEq

/-- public.settlements row (migration lines 43-51). -/
structure SettlementRow where
  apartment_id : String
  from_user : String
  to_user : String
  amount : Int
  note : Option String
deriving DecidableEq

/-- public.profiles row (migration lines 54-61). -/
structure ProfileRow where
  user_id : String
  full_name : String
  email : String
deriving DecidableEq

/-- The visible database state: the six tables of the migration. -/
structure DBState where
  apartments : List ApartmentRow
  apartment_members : List MemberRow
  expenses : List ExpenseRow
  expense_splits : List SplitRow
  settlements : List SettlementRow
  profiles : List ProfileRow
deriving DecidableEq

/-- The empty database, before any client request. -/
def initState : DBState := ⟨[], [], [], [], [], []⟩

/-- The membership test the policies use:
apartment_id IN (SELECT apartment_id FROM public.apartment_members
WHERE user_id = auth.uid()). -/
def isMember (s : DBState) (uid aptId : String) : Bool :=
  s.apartment_members.any (fun m => m.apartment_id == aptId && m.user_id == uid)

/-! ## Client requests admitted by the row-level-security policies
(migration lines 63-188)

Row-level security is enabled on every table (lines 64-69), so a
command for which no policy exists is rejected; the transition system
below therefore has one constructor per (table, command) pair that has a
policy, and none for the missing pairs - in particular none for
DELETE or UPDATE on settlements and none for DELETE on apartments.
SELECT policies do not change state and are omitted.  An UPDATE policy
without a WITH CHECK clause applies its USING condition to the new row
as well; updates and deletes act on one row at a time (a multi-row
statement is a sequence of steps).  The CHECK constraints of the schema
on amounts are enforced on insert and update.  Constraints irrelevant to
the claims (code uniqueness on update, foreign keys to auth.users) are
omitted; omitting a constraint only enlarges the set of transitions, so
every safety theorem below also covers the stricter real system.
Server-side triggers touch only timestamps and the profiles table and
add no transition on the claim-relevant tables. -/
inductive Step : String → DBState → DBState → Prop where
  /-- Lines 81-83: Users can create apartments (auth.uid() = created_by);
  line 5: code UNIQUE. -/
  | insertApartment (uid : String) (s : DBState) (row : ApartmentRow)
      (hpolicy : uid = row.created_by)
      (hunique : ∀ a ∈ s.apartments, a.code ≠ row.code) :
      Step uid s { s with apartments := s.apartments ++ [row] }
  /-- Lines 85-87: Apartment creators can update their apartments
  (USING auth.uid() = created_by, no WITH CHECK so the same condition
  applies to the new row). -/
  | updateApartment (uid : String) (s : DBState) (pre post : List ApartmentRow)
      (r r' : ApartmentRow)
      (hrows : s.apartments = pre ++ r :: post)
      (husing : uid = r.created_by)
      (hcheck : uid = r'.created_by) :
      Step uid s { s with apartments := pre ++ r' :: post }
  /-- Lines 99-101: Users can join apartments (auth.uid() = user_id);
  line 17: UNIQUE(apartment_id, user_id); line 14: apartment foreign
  key. -/
  | insertMember (uid : String) (s : DBState) (row : MemberRow)
      (hpolicy : uid = row.user_id)
      (hfk : ∃ a ∈ s.apartments, a.id = row.apartment_id)
      (hunique : ∀ m ∈ s.apartment_members,
        ¬(m.apartment_id = row.apartment_id ∧ m.user_id = row.user_id)) :
      Step uid s { s with apartment_members := s.apartment_members ++ [row] }
  /-- Lines 103-105: Users can leave apartments (auth.uid() = user_id). -/
  | deleteMember (uid : String) (s : DBState) (pre post : List MemberRow)
      (r : MemberRow)
      (hrows : s.apartment_members = pre ++ r :: post)
      (hpolicy : uid = r.user_id) :
      Step uid s { s with apartment_members := pre ++ post }
  /-- Lines 117-125: Apartment members can create expenses; line 25:
  CHECK (amount > 0); line 23: apartment foreign key. -/
  | insertExpense (uid : String) (s : DBState) (row : ExpenseRow)
      (hpolicy : uid = row.created_by)
      (hmember : isMember s uid row.apartment_id = true)
      (hcheck : 0 < row.amount)
      (hfk : ∃ a ∈ s.apartments, a.id = row.apartment_id) :
      Step uid s { s with expenses := s.expenses ++ [row] }
  /-- Lines 127-129: Expense creators can update their expenses; line 25:
  CHECK (amount > 0). -/
  | updateExpense (uid : String) (s : DBState) (pre post : List ExpenseRow)
      (r r' : ExpenseRow)
      (hrows : s.expenses = pre ++ r :: post)
      (husing : uid = r.created_by)
      (hcheck : uid = r'.created_by)
      (hamount : 0 < r'.amount) :
      Step uid s { s with expenses := pre ++ r' :: post }
  /-- Lines 131-133: Expense creators can delete their expenses;
  line 36: splits cascade on expense deletion. -/
  | deleteExpense (uid : String) (s : DBState) (pre post : List ExpenseRow)
      (r : ExpenseRow)
      (hrows : s.expenses = pre ++ r :: post)
      (hpolicy : uid = r.created_by) :
      Step uid s { s with
        expenses := pre ++ post
        expense_splits := s.expense_splits.filter (fun sp => sp.expense_id != r.id) }
  /-- Lines 148-155: Users can manage splits for their created expenses
  (FOR ALL, so the USING condition also governs inserted rows); line 38:
  CHECK (amount >= 0); line 39: UNIQUE(expense_id, user_id). -/
  | insertSplit (uid : String) (s : DBState) (row : SplitRow)
      (hpolicy : ∃ e ∈ s.expenses, e.id = row.expense_id ∧ e.created_by = uid)
      (hcheck : 0 ≤ row.amount)
      (hunique : ∀ sp ∈ s.expense_splits,
        ¬(sp.expense_id = row.expense_id ∧ sp.user_id = row.user_id)) :
      Step uid s { s with expense_splits := s.expense_splits ++ [row] }
  /-- Lines 148-155 for UPDATE; line 38: CHECK (amount >= 0). -/
  | updateSplit (uid : String) (s : DBState) (pre post : List SplitRow)
      (r r' : SplitRow)
      (hrows : s.expense_splits = pre ++ r :: post)
      (husing : ∃ e ∈ s.expenses, e.id = r.expense_id ∧ e.created_by = uid)
      (hcheck : ∃ e ∈ s.expenses, e.id = r'.expense_id ∧ e.created_by = uid)
      (hamount : 0 ≤ r'.amount) :
      Step uid s { s with expense_splits := pre ++ r' :: post }
  /-- Lines 148-155 for DELETE. -/
  | deleteSplit (uid : String) (s : DBState) (pre post : List SplitRow)
      (r : SplitRow)
      (hrows : s.expense_splits = pre ++ r :: post)
      (husing : ∃ e ∈ s.expenses, e.id = r.expense_id ∧ e.created_by = uid) :
      Step uid s { s with expense_splits := pre ++ post }
  /-- Lines 167-175: Users can create settlements in their apartments
  (WITH CHECK auth.uid() = from_user AND apartment_id in the requester's
  memberships); line 48: CHECK (amount > 0); line 45: apartment foreign
  key. -/
  | insertSettlement (uid : String) (s : DBState) (row : SettlementRow)
      (hpolicy : uid = row.from_user)
      (hmember : isMember s uid row.apartment_id = true)
      (hcheck : 0 < row.amount)
      (hfk : ∃ a ∈ s.apartments, a.id = row.apartment_id) :
      Step uid s { s with settlements := s.settlements ++ [row] }
  /-- Lines 186-188: Users can insert their own profile; line 56:
  user_id UNIQUE. -/
  | insertProfile (uid : String) (s : DBState) (row : ProfileRow)
      (hpolicy : uid = row.user_id)
      (hunique : ∀ p ∈ s.profiles, p.user_id ≠ row.user_id) :
      Step uid s { s with profiles := s.profiles ++ [row] }
  /-- Lines 182-184: Users can update their own profile (USING
  auth.uid() = user_id, applied to the new row as well). -/
  | updateProfile (uid : String) (s : DBState) (pre post : List ProfileRow)
      (r r' : ProfileRow)
      (hrows : s.profiles = pre ++ r :: post)
      (husing : uid = r.user_id)
      (hcheck : uid = r'.user_id) :
      Step uid s { s with profiles := pre ++ r' :: post }

/-- One client request by some authenticated user. -/
def DBStep (s s' : DBState) : Prop := ∃ uid, Step uid s s'

/-- A database state the store can reach from empty under a sequence of
client requests. -/
def Reachable (s : DBState) : Prop := Relation.ReflTransGen DBStep initState s

/-! ## Join flow (src/src/components/JoinApartmentDialog.tsx lines 22-78) -/

/-- Error taxonomy of the join flow (spec sections 4.2 and 7). -/
inductive JoinError where
  | notFound
  | alreadyMember
deriving DecidableEq

/-- The whitespace characters relevant to JavaScript trim() on code
input (the ASCII subset; the full JS set only adds further characters
that likewise never occur in a stored code). -/
def isJsWhitespace (c : Char) : Bool :=
  (c == ' ') || (c == '\t') || (c == '\n') || (c == '\r')

/-- JavaScript String.prototype.trim(): drop leading and trailing
whitespace. -/
def trimChars (l : List Char) : List Char :=
  ((l.dropWhile isJsWhitespace).reverse.dropWhile isJsWhitespace).reverse

/-- JavaScript String.prototype.toUpperCase() on one ASCII character. -/
def jsUpperChar (c : Char) : Char :=
  if 97 ≤ c.toNat ∧ c.toNat ≤ 122 then Char.ofNat (c.toNat - 32) else c

/-- JoinApartmentDialog.tsx line 32: apartmentCode.trim().toUpperCase(). -/
def normalizeCode (s : String) : String :=
  String.mk ((trimChars s.data).map jsUpperChar)

/-- JoinApartmentDialog.tsx lines 28-59, after the entered code has been
normalised.  The apartments select runs under row-level security, so
only apartments the requester is a member of are visible (migration
lines 72-79); .single() succeeds only on exactly one row, otherwise the
dialog reports the not-found error; an existing membership row reports
the already-member error; otherwise the membership row is inserted. -/
def joinWithCode (s : DBState) (uid code : String) :
    Except JoinError String × DBState :=
  match (s.apartments.filter (fun a => isMember s uid a.id)).filter
      (fun a => a.code == code) with
  | [apt] =>
    if isMember s uid apt.id then (Except.error JoinError.alreadyMember, s)
    else (Except.ok apt.id,
      { s with apartment_members := s.apartment_members ++ [⟨apt.id, uid⟩] })
  | _ => (Except.error JoinError.notFound, s)

/-- The whole submit handler: normalise the entered code, then run the
join flow. -/
def joinApartment (s : DBState) (uid input : String) :
    Except JoinError String × DBState :=
  joinWithCode s uid (normalizeCode input)

/-- An uppercase alphanumeric character (the alphabet of generated
apartment codes), as a Boolean test. -/
def isUpperAlnum (c : Char) : Bool :=
  (decide (65 ≤ c.toNat) && decide (c.toNat ≤ 90)) ||
    (decide (48 ≤ c.toNat) && decide (c.toNat ≤ 57))

/-! ## Concrete witness data: one apartment, its creating member, one
settlement, and the states a small request sequence reaches. -/

/-- A concrete apartment row. -/
def aptW : ApartmentRow := ⟨"a1", "Flat", "AB12C3", "X"⟩

/-- The creating user's membership row. -/
def memW : MemberRow := ⟨"a1", "X"⟩

/-- A concrete settlement row. -/
def settW : SettlementRow := ⟨"a1", "X", "Y", 5000, none⟩

/-- The state after inserting the apartment. -/
def stateA : DBState := ⟨[aptW], [], [], [], [], []⟩

/-- The state after the creator joins. -/
def stateB : DBState := ⟨[aptW], [memW], [], [], [], []⟩

/-- The state after the creator records a settlement. -/
def stateC : DBState := ⟨[aptW], [memW], [], [], [settW], []⟩

/-! ## Theorems -/

/-- CHR on the letter range keeps its code point. -/
theorem toNat_ofNat_letter (a : Nat) (h : a ≤ 25) :
    (Char.ofNat (65 + a)).toNat = 65 + a := by
  interval_cases a <;> decide

/-- CHR on the digit range keeps its code point. -/
theorem toNat_ofNat_digit (a : Nat) (h : a ≤ 9) :
    (Char.ofNat (48 + a)).toNat = 48 + a := by
  interval_cases a <;> decide

/-- Unfolding of the pattern test on a literal six-character string. -/
theorem codeMatchesPattern_mk (a b c d e f : Char) :
    codeMatchesPattern (String.mk [a, b, c, d, e, f]) =
      (isUpperLetter a ∧ isUpperLetter b ∧ isDigitChar c ∧ isDigitChar d ∧
        isUpperLetter e ∧ isDigitChar f) := rfl

/-- C3: the claim says generate_apartment_code retries on collision and,
whenever unused codes exist, terminates with a code distinct from every
stored one.  The code contradicts its own comments (lines 252-256,
"Check if code already exists ... Exit loop if code is unique"): the
WHERE clause compares the name code with itself, so the emptiness of the
whole apartments table is what is tested, and on every non-empty store
the loop never exits, whatever random codes are drawn.  This theorem
evaluates the embedded code at the failing inputs: for every non-empty
store and every random stream, no code is ever returned. -/
theorem c3_generate_code_never_terminates (codes : List String)
    (h : codes ≠ []) (rands : List Rand6) :
    generate_apartment_code codes rands = none := by
  induction rands with
  | nil => rfl
  | cons r rest ih =>
    have htk : codeTaken codes (mkCode r) = true := by
      cases codes with
      | nil => exact absurd rfl h
      | cons x xs => rfl
    simp [generate_apartment_code, htk, ih]

/-- Witness for C3: a store holding one apartment code, and a random
stream offering two fresh distinct candidates (the claim's scenario C
situation); the generator still returns nothing. -/
theorem c3_generate_code_never_terminates_witness :
    (["AB12C3"] : List String) ≠ [] ∧
      generate_apartment_code ["AB12C3"]
        [⟨0, 0, 0, 0, 0, 0⟩, ⟨1, 2, 3, 4, 5, 6⟩, ⟨2, 3, 4, 5, 6, 7⟩] = none :=
  ⟨by decide, c3_generate_code_never_terminates ["AB12C3"] (by decide) _⟩

/-- C5: every code the generator returns is exactly 6 characters in the
pattern letter, letter, digit, digit, letter, digit (hence uppercase
alphanumeric), provided the six random draws lie in the ranges the
RANDOM() casts deliver. -/
theorem c5_generated_code_format (codes : List String) (rands : List Rand6)
    (c : String) (hr : ∀ r ∈ rands, randInRange r)
    (hret : generate_apartment_code codes rands = some c) :
    c.length = 6 ∧ codeMatchesPattern c := by
  induction rands with
  | nil => simp [generate_apartment_code] at hret
  | cons r rest ih =>
    simp only [generate_apartment_code] at hret
    by_cases htk : codeTaken codes (mkCode r) = true
    · rw [if_pos htk] at hret
      exact ih (fun x hx => hr x (List.mem_cons_of_mem _ hx)) hret
    · rw [if_neg htk] at hret
      have hc : mkCode r = c := Option.some.inj hret
      subst hc
      obtain ⟨h1, h2, h3, h4, h5, h6⟩ := hr r (List.mem_cons_self _ _)
      refine ⟨rfl, ?_⟩
      rw [mkCode, codeMatchesPattern_mk]
      refine ⟨⟨?_, ?_⟩, ⟨?_, ?_⟩, ⟨?_, ?_⟩, ⟨?_, ?_⟩, ⟨?_, ?_⟩, ⟨?_, ?_⟩⟩ <;>
        simp only [toNat_ofNat_letter _ h1, toNat_ofNat_letter _ h2,
          toNat_ofNat_digit _ h3, toNat_ofNat_digit _ h4,
          toNat_ofNat_letter _ h5, toNat_ofNat_digit _ h6] <;> omega

/-- Witness for C5: on an empty store the first candidate is returned
and it matches the pattern. -/
theorem c5_generated_code_format_witness :
    (∀ r ∈ ([⟨0, 1, 2, 3, 4, 5⟩] : List Rand6), randInRange r) ∧
      ("AB23E5" : String).length = 6 ∧ codeMatchesPattern "AB23E5" :=
  ⟨by decide,
    c5_generated_code_format [] [⟨0, 1, 2, 3, 4, 5⟩] "AB23E5" (by decide) rfl⟩

/-- Sum of a pointwise addition splits into two sums. -/
theorem sumMapAdd {α : Type} (l : List α) (f g : α → Int) :
    (l.map (fun x => f x + g x)).sum = (l.map f).sum + (l.map g).sum := by
  induction l with
  | nil => simp
  | cons x xs ih =>
    simp only [List.map_cons, List.sum_cons, ih]
    omega

/-- Sum of a pointwise subtraction splits into a difference of sums. -/
theorem sumMapSub {α : Type} (l : List α) (f g : α → Int) :
    (l.map (fun x => f x - g x)).sum = (l.map f).sum - (l.map g).sum := by
  induction l with
  | nil => simp
  | cons x xs ih =>
    simp only [List.map_cons, List.sum_cons, ih]
    omega

/-- Exchange of two finite sums over lists. -/
theorem sumMapSwap {α β : Type} (l : List α) (m : List β) (F : α → β → Int) :
    (l.map (fun x => (m.map (F x)).sum)).sum =
      (m.map (fun y => (l.map (fun x => F x y)).sum)).sum := by
  induction m with
  | nil => simp
  | cons y ys ih =>
    simp only [List.map_cons, List.sum_cons]
    rw [← ih, ← sumMapAdd]

/-- A sum of indicator terms over a list not containing the target is
zero. -/
theorem sumIteNone {α : Type} [DecidableEq α] (l : List α) (p : α) (A : Int)
    (hp : p ∉ l) : (l.map (fun u => if p = u then A else 0)).sum = 0 := by
  induction l with
  | nil => simp
  | cons x xs ih =>
    have hx : p ≠ x := fun h => hp (h ▸ List.mem_cons_self x xs)
    have hxs : p ∉ xs := fun h => hp (List.mem_cons_of_mem _ h)
    simp [hx, ih hxs]

/-- A sum of indicator terms over a duplicate-free list containing the
target picks out exactly one copy of the value. -/
theorem sumIteSingle {α : Type} [DecidableEq α] (l : List α) (hl : l.Nodup)
    (p : α) (hp : p ∈ l) (A : Int) :
    (l.map (fun u => if p = u then A else 0)).sum = A := by
  induction l with
  | nil => exact absurd hp (List.not_mem_nil p)
  | cons x xs ih =>
    rcases List.mem_cons.mp hp with h | h
    · subst h
      have hnot : p ∉ xs := (List.nodup_cons.mp hl).1
      simp [sumIteNone xs p A hnot]
    · have hx : p ≠ x := by
        intro he
        exact (List.nodup_cons.mp hl).1 (he ▸ h)
      simp [hx, ih (List.nodup_cons.mp hl).2 h]

/-- Summed over a duplicate-free list holding every split user, the
per-user split debits add up to the total of all shares. -/
theorem sumSplitDebit (D : List String) (hD : D.Nodup) (sps : List SplitIn)
    (hin : ∀ sp ∈ sps, sp.user ∈ D) :
    (D.map (fun u => splitDebit u sps)).sum = (sps.map SplitIn.amount).sum := by
  unfold splitDebit
  rw [sumMapSwap]
  have : ∀ sp ∈ sps,
      (D.map (fun u => if sp.user = u then sp.amount else 0)).sum = sp.amount :=
    fun sp hsp => sumIteSingle D hD sp.user (hin sp hsp) sp.amount
  calc (sps.map (fun sp =>
          (D.map (fun u => if sp.user = u then sp.amount else 0)).sum)).sum
      = (sps.map SplitIn.amount).sum := by
        apply congrArg
        exact List.map_congr_left this

/-- C2: whenever the Balance Engine accepts its input and every
expense's splits sum exactly to the expense amount, the member balances
it returns sum to zero. -/
theorem c2_balances_sum_zero (members : List String) (es : List ExpenseIn)
    (ss : List SettlementIn) (bals : List (String × Int))
    (hok : computeBalances members es ss = Except.ok bals)
    (hsplits : ∀ e ∈ es, (e.splits.map SplitIn.amount).sum = e.amount) :
    (bals.map Prod.snd).sum = 0 := by
  unfold computeBalances at hok
  by_cases hv : validInput members es ss = true
  · rw [if_pos hv] at hok
    have hbals : bals = members.dedup.map (fun u => (u, balanceOf u es ss)) :=
      (Except.ok.inj hok).symm
    subst hbals
    have hD : members.dedup.Nodup := members.nodup_dedup
    -- extract the membership facts from the validation
    have hval : (es.all (fun e => decide (0 < e.amount) &&
          members.contains e.payer &&
          e.splits.all (fun sp => decide (0 ≤ sp.amount) &&
            members.contains sp.user)) &&
        ss.all (fun st => decide (0 < st.amount) &&
          members.contains st.from_user && members.contains st.to_user)) =
        true := hv
    rw [Bool.and_eq_true] at hval
    obtain ⟨hes, hss⟩ := hval
    rw [List.all_eq_true] at hes hss
    have hpayer : ∀ e ∈ es, e.payer ∈ members.dedup := by
      intro e he
      have := hes e he
      rw [Bool.and_eq_true, Bool.and_eq_true] at this
      exact List.mem_dedup.mpr (List.mem_of_elem_eq_true this.1.2)
    have hsplitu : ∀ e ∈ es, ∀ sp ∈ e.splits, sp.user ∈ members.dedup := by
      intro e he sp hsp
      have := hes e he
      rw [Bool.and_eq_true] at this
      have := this.2
      rw [List.all_eq_true] at this
      have := this sp hsp
      rw [Bool.and_eq_true] at this
      exact List.mem_dedup.mpr (List.mem_of_elem_eq_true this.2)
    have hfrom : ∀ st ∈ ss, st.from_user ∈ members.dedup := by
      intro st hst
      have := hss st hst
      rw [Bool.and_eq_true, Bool.and_eq_true] at this
      exact List.mem_dedup.mpr (List.mem_of_elem_eq_true this.1.2)
    have hto : ∀ st ∈ ss, st.to_user ∈ members.dedup := by
      intro st hst
      have := hss st hst
      rw [Bool.and_eq_true] at this
      exact List.mem_dedup.mpr (List.mem_of_elem_eq_true this.2)
    -- reduce to a sum of per-user balances
    rw [List.map_map]
    have hsnd : (Prod.snd ∘ fun u => (u, balanceOf u es ss)) =
        fun u => balanceOf u es ss := rfl
    rw [hsnd]
    unfold balanceOf
    rw [sumMapAdd]
    -- the expense part vanishes
    have hexp : (members.dedup.map
        (fun u => (es.map (expenseContrib u)).sum)).sum = 0 := by
      rw [sumMapSwap]
      have hzero : ∀ e ∈ es,
          (members.dedup.map (fun u => expenseContrib u e)).sum = 0 := by
        intro e he
        unfold expenseContrib
        rw [sumMapSub]
        rw [sumIteSingle members.dedup hD e.payer (hpayer e he) e.amount]
        rw [sumSplitDebit members.dedup hD e.splits (hsplitu e he)]
        rw [hsplits e he]
        omega
      rw [List.map_congr_left hzero]
      simp
    -- the settlement part vanishes
    have hsett : (members.dedup.map
        (fun u => (ss.map (settlementContrib u)).sum)).sum = 0 := by
      rw [sumMapSwap]
      have hzero : ∀ st ∈ ss,
          (members.dedup.map (fun u => settlementContrib u st)).sum = 0 := by
        intro st hst
        unfold settlementContrib
        rw [sumMapSub]
        rw [sumIteSingle members.dedup hD st.from_user (hfrom st hst) st.amount]
        rw [sumIteSingle members.dedup hD st.to_user (hto st hst) st.amount]
        omega
      rw [List.map_congr_left hzero]
      simp
    rw [hexp, hsett]
    omega
  · rw [if_neg hv] at hok
    exact absurd hok (by simp)

/-- Witness for C2: the spec's scenario B (expense of 100.00 paid by X
split 50.00 and 50.00, plus a settlement of 50.00 from Y to X) is
accepted, its splits sum to the amount, and the returned balances sum to
zero. -/
theorem c2_balances_sum_zero_witness :
    computeBalances ["X", "Y"]
        [⟨"e1", "X", 10000, [⟨"X", 5000⟩, ⟨"Y", 5000⟩]⟩]
        [⟨"Y", "X", 5000⟩] =
      Except.ok [("X", 0), ("Y", 0)] ∧
    (([("X", (0 : Int)), ("Y", 0)]).map Prod.snd).sum = 0 :=
  ⟨by decide,
    c2_balances_sum_zero ["X", "Y"]
      [⟨"e1", "X", 10000, [⟨"X", 5000⟩, ⟨"Y", 5000⟩]⟩]
      [⟨"Y", "X", 5000⟩] [("X", 0), ("Y", 0)] (by decide) (by decide)⟩

/-- C1: the claim says the balance computation shown to the user in
scenario A (one expense of 100.00 paid by X, split 50.00 and 50.00
between X and Y, no settlements) yields +50.00 for X and -50.00 for Y.
The dashboard code contradicts its own comment (Dashboard.tsx lines
74-75: "Calculate user balance (simplified ...)" followed by
`const userBalance = 0; // TODO: Calculate actual balance`): the balance
it shows is the constant 0 for every member, while the spec's Balance
Engine on the same data yields +5000 cents for X and -5000 cents for Y.
This theorem evaluates both at the scenario A input. -/
theorem c1_dashboard_balance_is_zero_not_fifty :
    (buildApartmentCard "a1" "Flat" "AB12C3" 2 [10000]).user_balance = ⟨0, 1⟩ ∧
    computeBalances ["X", "Y"]
        [⟨"e1", "X", 10000, [⟨"X", 5000⟩, ⟨"Y", 5000⟩]⟩] [] =
      Except.ok [("X", 5000), ("Y", -5000)] :=
  ⟨rfl, by decide⟩

/-- C6 counterexample: the claim says the per-apartment total of expense
amounts equals the exact decimal sum of the stored two-decimal amounts.
For the stored amounts 0.10 and 0.20 (10 and 20 cents) the dashboard's
binary64 summation differs from the exact sum 0.30. -/
theorem c6_float_drift_counterexample :
    ¬ fracEqv (dashboardTotalExpenses [10, 20]) (exactCentsTotal [10, 20]) := by
  decide

/-- C6 amended: amounts are stored as two-decimal fixed-point values,
but the dashboard total is computed with binary64 floating-point
addition and can drift from the exact decimal sum: for 0.10 and 0.20 the
exact sum is 30/100 while the computed total is the binary64 value
5404319552844596 times 2 to the -54 (about 0.30000000000000004). -/
theorem c6_amended_float_total :
    exactCentsTotal [10, 20] = ⟨30, 100⟩ ∧
    fracEqv (dashboardTotalExpenses [10, 20])
      ⟨5404319552844596, 18014398509481984⟩ ∧
    ¬ fracEqv (⟨5404319552844596, 18014398509481984⟩ : Frac) ⟨30, 100⟩ :=
  ⟨rfl, by decide, by decide⟩

/-- dropWhile is the identity when no element satisfies the predicate. -/
theorem dropWhileAllFalse (p : Char → Bool) (l : List Char)
    (h : ∀ c ∈ l, p c = false) : l.dropWhile p = l := by
  cases l with
  | nil => rfl
  | cons x xs =>
    rw [List.dropWhile_cons]
    simp [h x (List.mem_cons_self x xs)]

/-- trim is the identity on whitespace-free character lists. -/
theorem trimCharsId (l : List Char)
    (h : ∀ c ∈ l, isJsWhitespace c = false) : trimChars l = l := by
  unfold trimChars
  rw [dropWhileAllFalse _ l h]
  rw [dropWhileAllFalse _ l.reverse (fun c hc => h c (List.mem_reverse.mp hc))]
  exact List.reverse_reverse l

/-- The code-point ranges behind the uppercase-alphanumeric test. -/
theorem alnumToNatRange (c : Char) (h : isUpperAlnum c = true) :
    (65 ≤ c.toNat ∧ c.toNat ≤ 90) ∨ (48 ≤ c.toNat ∧ c.toNat ≤ 57) := by
  unfold isUpperAlnum at h
  simp only [Bool.or_eq_true, Bool.and_eq_true, decide_eq_true_eq] at h
  exact h

/-- JavaScript toUpperCase leaves uppercase letters and digits alone. -/
theorem jsUpperCharId (c : Char) (h : isUpperAlnum c = true) :
    jsUpperChar c = c := by
  unfold jsUpperChar
  rw [if_neg]
  rcases alnumToNatRange c h with ⟨h1, h2⟩ | ⟨h1, h2⟩ <;>
    (intro hc; omega)

/-- An uppercase alphanumeric character is not whitespace. -/
theorem alnumNotWs (c : Char) (h : isUpperAlnum c = true) :
    isJsWhitespace c = false := by
  have hr := alnumToNatRange c h
  unfold isJsWhitespace
  have hne : ∀ w : Char, c.toNat ≠ w.toNat → (c == w) = false := by
    intro w hw
    rw [beq_eq_false_iff_ne]
    intro he
    exact hw (he ▸ rfl)
  rw [hne ' ' (by rcases hr with ⟨h1, h2⟩ | ⟨h1, h2⟩ <;> simp <;> omega)]
  rw [hne '\t' (by rcases hr with ⟨h1, h2⟩ | ⟨h1, h2⟩ <;> simp <;> omega)]
  rw [hne '\n' (by rcases hr with ⟨h1, h2⟩ | ⟨h1, h2⟩ <;> simp <;> omega)]
  rw [hne '\r' (by rcases hr with ⟨h1, h2⟩ | ⟨h1, h2⟩ <;> simp <;> omega)]
  rfl

/-- Normalisation (trim then uppercase) is the identity on a canonical
code made of uppercase letters and digits. -/
theorem normalizeCodeCanonical (s : String)
    (h : ∀ c ∈ s.data, isUpperAlnum c = true) : normalizeCode s = s := by
  unfold normalizeCode
  rw [trimCharsId s.data (fun c hc => alnumNotWs c (h c hc))]
  have hmap : s.data.map jsUpperChar = s.data.map id :=
    List.map_congr_left (fun c hc => jsUpperCharId c (h c hc))
  rw [hmap, List.map_id]

/-- C10: join-code matching is insensitive to case and surrounding
whitespace in the entered code: an input whose trimmed uppercased form
equals the stored apartment's (uppercase alphanumeric) code makes the
join flow behave exactly as entering the canonical code itself. -/
theorem c10_join_code_normalisation (s : DBState) (uid input : String)
    (apt : ApartmentRow)
    (hnorm : normalizeCode input = apt.code)
    (halnum : ∀ c ∈ apt.code.data, isUpperAlnum c = true) :
    joinApartment s uid input = joinApartment s uid apt.code := by
  unfold joinApartment
  rw [hnorm, normalizeCodeCanonical apt.code halnum]

/-- Witness for C10: entering "  ab12c3 " (lowercase, padded) behaves
exactly as entering the canonical code "AB12C3". -/
theorem c10_join_code_normalisation_witness :
    normalizeCode "  ab12c3 " = ("AB12C3" : String) ∧
    joinApartment stateB "Y" "  ab12c3 " = joinApartment stateB "Y" "AB12C3" :=
  ⟨by decide,
    c10_join_code_normalisation stateB "Y" "  ab12c3 " aptW (by decide) (by decide)⟩

/-- Filtering a duplicate-free list in which exactly one element a
satisfies p yields the singleton list of a. -/
theorem filterEqSingleton {α : Type} (p : α → Bool) (l : List α)
    (hl : l.Nodup) (a : α) (ha : a ∈ l) (hpa : p a = true)
    (huniq : ∀ b ∈ l, p b = true → b = a) : l.filter p = [a] := by
  induction l with
  | nil => exact absurd ha (List.not_mem_nil a)
  | cons x xs ih =>
    rcases List.mem_cons.mp ha with h | h
    · subst h
      rw [List.filter_cons_of_pos hpa]
      have hnil : xs.filter p = [] := by
        rw [List.filter_eq_nil_iff]
        intro b hb hpb
        have := huniq b (List.mem_cons_of_mem _ hb) hpb
        subst this
        exact (List.nodup_cons.mp hl).1 hb
      rw [hnil]
    · have hxa : x ≠ a := by
        intro he
        exact (List.nodup_cons.mp hl).1 (he ▸ h)
      have hpx : p x = false := by
        cases hpx : p x with
        | false => rfl
        | true => exact absurd (huniq x (List.mem_cons_self _ _) hpx) hxa
      rw [List.filter_cons_of_neg (by rw [hpx]; exact Bool.false_ne_true)]
      exact ih (List.nodup_cons.mp hl).2 h
        (fun b hb hpb => huniq b (List.mem_cons_of_mem _ hb) hpb)

/-- C4: when no apartment's code matches the normalised entered code,
the join flow fails with notFound and leaves the store unchanged (no
membership row inserted); when the matching apartment already has a
membership row for the requester, it fails with alreadyMember and
leaves the store unchanged.  The stored codes are pairwise distinct, as
the UNIQUE constraint on apartments.code guarantees. -/
theorem c4_join_failure_cases (s : DBState) (uid input : String)
    (hcodes : (s.apartments.map ApartmentRow.code).Nodup) :
    ((∀ a ∈ s.apartments, a.code ≠ normalizeCode input) →
      joinApartment s uid input = (Except.error JoinError.notFound, s)) ∧
    (∀ apt ∈ s.apartments, apt.code = normalizeCode input →
      isMember s uid apt.id = true →
      joinApartment s uid input = (Except.error JoinError.alreadyMember, s)) := by
  constructor
  · intro hnone
    unfold joinApartment joinWithCode
    have hfil : (s.apartments.filter (fun a => isMember s uid a.id)).filter
        (fun a => a.code == normalizeCode input) = [] := by
      rw [List.filter_eq_nil_iff]
      intro a ha hbeq
      have hmem := (List.mem_filter.mp ha).1
      rw [beq_iff_eq] at hbeq
      exact hnone a hmem hbeq
    rw [hfil]
  · intro apt hapt hcode hmem
    unfold joinApartment joinWithCode
    have hnodupApts : s.apartments.Nodup := List.Nodup.of_map _ hcodes
    have hvisnd : (s.apartments.filter (fun a => isMember s uid a.id)).Nodup :=
      List.Nodup.filter _ hnodupApts
    have hvismem : apt ∈ s.apartments.filter (fun a => isMember s uid a.id) :=
      List.mem_filter.mpr ⟨hapt, hmem⟩
    have hfil : (s.apartments.filter (fun a => isMember s uid a.id)).filter
        (fun a => a.code == normalizeCode input) = [apt] := by
      apply filterEqSingleton _ _ hvisnd apt hvismem (by rw [beq_iff_eq]; exact hcode)
      intro b hb hpb
      have hbap : b ∈ s.apartments := (List.mem_filter.mp hb).1
      rw [beq_iff_eq] at hpb
      have hbc : b.code = apt.code := by rw [hpb, hcode]
      exact List.inj_on_of_nodup_map hcodes hbap hapt hbc
    rw [hfil]
    simp [hmem]

/-- Witness for C4: in the one-apartment store, a non-matching code
fails with notFound and a second join by the existing member fails with
alreadyMember; the store is returned unchanged both times. -/
theorem c4_join_failure_cases_witness :
    joinApartment stateB "Y" "ZZ99Z9" = (Except.error JoinError.notFound, stateB) ∧
    joinApartment stateB "X" "AB12C3" =
      (Except.error JoinError.alreadyMember, stateB) :=
  ⟨(c4_join_failure_cases stateB "Y" "ZZ99Z9" (by decide)).1 (by decide),
   (c4_join_failure_cases stateB "X" "AB12C3" (by decide)).2 aptW (by decide)
     (by decide) (by decide)⟩

/-- Per-step behaviour of the settlements table: every admitted client
request either leaves it untouched or appends one row that the
insert policy authorised (from_user is the requester, a member of the
apartment at that moment) and the CHECK constraint validated
(positive amount). -/
theorem stepSettlements (uid : String) (s s' : DBState) (h : Step uid s s') :
    s'.settlements = s.settlements ∨
      ∃ r, s'.settlements = s.settlements ++ [r] ∧ r.from_user = uid ∧
        0 < r.amount ∧
        ∃ m ∈ s.apartment_members, m.apartment_id = r.apartment_id ∧
          m.user_id = r.from_user := by
  cases h
  all_goals try exact Or.inl rfl
  next row hpolicy hmember hcheck hfk =>
    right
    refine ⟨row, rfl, hpolicy.symm, hcheck, ?_⟩
    unfold isMember at hmember
    rw [List.any_eq_true] at hmember
    obtain ⟨m, hm, hmm⟩ := hmember
    rw [Bool.and_eq_true, beq_iff_eq, beq_iff_eq] at hmm
    exact ⟨m, hm, hmm.1, hmm.2.trans hpolicy⟩

/-- C7: settlements are immutable and positive.  No client request can
change or remove an existing settlement row (there is no UPDATE or
DELETE policy on settlements, so row-level security rejects those
commands): a step can only leave the settlements list unchanged or
append one row.  Consequently every settlement row in a reachable store
state has a strictly positive amount, as the CHECK constraint demands on
insertion. -/
theorem c7_settlements_immutable_and_positive :
    (∀ uid s s', Step uid s s' →
      s'.settlements = s.settlements ∨
        ∃ r, s'.settlements = s.settlements ++ [r]) ∧
    (∀ s, Reachable s → ∀ r ∈ s.settlements, 0 < r.amount) := by
  constructor
  · intro uid s s' h
    rcases stepSettlements uid s s' h with h1 | ⟨r, hr, _⟩
    · exact Or.inl h1
    · exact Or.inr ⟨r, hr⟩
  · intro s hreach
    unfold Reachable at hreach
    induction hreach with
    | refl => intro r hr; exact absurd hr (List.not_mem_nil r)
    | tail h1 h2 ih =>
      obtain ⟨uid, hstep⟩ := h2
      intro r hr
      rcases stepSettlements uid _ _ hstep with heq | ⟨row, hrow, _, hpos, _⟩
      · exact ih r (heq ▸ hr)
      · rw [hrow] at hr
        rcases List.mem_append.mp hr with h | h
        · exact ih r h
        · rw [List.mem_singleton] at h
          subst h
          exact hpos

/-- C8: a settlement row can only come into existence through the
insert policy: the requester is its from_user and holds a membership row
for the settlement's apartment at insertion time. -/
theorem c8_settlement_insert_authorised (uid : String) (s s' : DBState)
    (h : Step uid s s') :
    s'.settlements = s.settlements ∨
      ∃ r, s'.settlements = s.settlements ++ [r] ∧ r.from_user = uid ∧
        ∃ m ∈ s.apartment_members, m.apartment_id = r.apartment_id ∧
          m.user_id = r.from_user := by
  rcases stepSettlements uid s s' h with h1 | ⟨r, hr, hu, _, hm⟩
  · exact Or.inl h1
  · exact Or.inr ⟨r, hr, hu, hm⟩

/-- One step never decreases the number of apartment rows: there is no
DELETE policy on apartments, inserts lengthen the table and updates
replace a row in place. -/
theorem stepApartmentsLen (uid : String) (s s' : DBState) (h : Step uid s s') :
    s.apartments.length ≤ s'.apartments.length := by
  cases h
  all_goals try exact Nat.le_refl _
  next row hpolicy hunique =>
    simp
  next pre post r r' hrows husing hcheck =>
    rw [hrows]
    simp

/-- C9: under every sequence of client requests the apartments table
never shrinks: row-level security is enabled on apartments and only
SELECT, INSERT and UPDATE policies exist, so no reachable successor
state has fewer apartment rows. -/
theorem c9_apartments_never_shrink (s s' : DBState)
    (h : Relation.ReflTransGen DBStep s s') :
    s.apartments.length ≤ s'.apartments.length := by
  induction h with
  | refl => exact Nat.le_refl _
  | tail h1 h2 ih =>
    obtain ⟨uid, hstep⟩ := h2
    exact le_trans ih (stepApartmentsLen uid _ _ hstep)

/-- The apartment insertion request is admitted on the empty store. -/
theorem stepInitA : Step "X" initState stateA :=
  Step.insertApartment "X" initState aptW rfl
    (fun a ha => absurd ha (List.not_mem_nil a))

/-- The membership insertion request is admitted after it. -/
theorem stepAB : Step "X" stateA stateB :=
  Step.insertMember "X" stateA memW rfl ⟨aptW, by simp [stateA], rfl⟩
    (fun m hm => absurd hm (List.not_mem_nil m))

/-- The settlement insertion request is admitted after that. -/
theorem stepBC : Step "X" stateB stateC :=
  Step.insertSettlement "X" stateB settW rfl (by decide) (by decide)
    ⟨aptW, by simp [stateB], rfl⟩

/-- The three-request sequence reaches the settlement-holding state. -/
theorem reachC : Reachable stateC :=
  Relation.ReflTransGen.head ⟨"X", stepInitA⟩
    (Relation.ReflTransGen.head ⟨"X", stepAB⟩
      (Relation.ReflTransGen.single ⟨"X", stepBC⟩))

/-- Witness for C7: the settlement insertion step only appends, and in
the reachable state every settlement amount is positive. -/
theorem c7_settlements_immutable_and_positive_witness :
    (stateC.settlements = stateB.settlements ∨
      ∃ r, stateC.settlements = stateB.settlements ++ [r]) ∧
    (∀ r ∈ stateC.settlements, 0 < r.amount) :=
  ⟨c7_settlements_immutable_and_positive.1 "X" stateB stateC stepBC,
   c7_settlements_immutable_and_positive.2 stateC reachC⟩

/-- Witness for C8: the concrete settlement insertion satisfies the
authorisation conclusion. -/
theorem c8_settlement_insert_authorised_witness :
    stateC.settlements = stateB.settlements ∨
      ∃ r, stateC.settlements = stateB.settlements ++ [r] ∧ r.from_user = "X" ∧
        ∃ m ∈ stateB.apartment_members, m.apartment_id = r.apartment_id ∧
          m.user_id = r.from_user :=
  c8_settlement_insert_authorised "X" stateB stateC stepBC

/-- Witness for C9: along the concrete insertion step the apartments
table does not shrink. -/
theorem c9_apartments_never_shrink_witness :
    initState.apartments.length ≤ stateA.apartments.length :=
  c9_apartments_never_shrink initState stateA
    (Relation.ReflTransGen.single ⟨"X", stepInitA⟩)
